import Mathlib

/-!
Shallow embedding of the retailMatch ETL core (src/etl/*.py) and proofs
about the frozen specification claims.  Python values flowing through the
adapters are modelled by `PyVal`; machine integers are `Nat`/`Int` with
explicit reductions modulo 2^32 where the MD5 digest needs them; fallible
code returns `Option`/`Except`.
-/

namespace RetailMatch

/-- Python values that occur in the adapter rows of this repository:
`None`, `str` and `int`.  (`float` cells and pandas `NaN` never reach the
code paths the claims are about and are not modelled.) -/
inductive PyVal where
  | none : PyVal
  | str : String → PyVal
  | int : Int → PyVal
deriving DecidableEq

/-- Python `str(v)`: `str(None) = "None"`, strings unchanged, ints in
decimal notation. -/
def pyStr : PyVal → String
  | .none => "None"
  | .str s => s
  | .int n => toString n

/-- Python truthiness of the values modelled by `PyVal`. -/
def pyTruthy : PyVal → Bool
  | .none => false
  | .str s => s ≠ ""
  | .int n => n ≠ 0

/-- UTF-8 encoding of a single code point, as bytes (each a `Nat < 256`). -/
def utf8Char (c : Char) : List Nat :=
  let n := c.toNat
  if n < 128 then [n]
  else if n < 2048 then
    [192 ||| (n >>> 6), 128 ||| (n &&& 63)]
  else if n < 65536 then
    [224 ||| (n >>> 12), 128 ||| ((n >>> 6) &&& 63), 128 ||| (n &&& 63)]
  else
    [240 ||| (n >>> 18), 128 ||| ((n >>> 12) &&& 63),
     128 ||| ((n >>> 6) &&& 63), 128 ||| (n &&& 63)]

/-- UTF-8 encoding of a string (`s.encode("utf-8")` in the source). -/
def utf8 (s : String) : List Nat := (s.data.map utf8Char).flatten

/-! ### MD5 (RFC 1321), executable over byte lists -/

def u32 (n : Nat) : Nat := n % 4294967296

def bnot32 (x : Nat) : Nat := 4294967295 ^^^ x

def rotl32 (x s : Nat) : Nat := u32 (x <<< s) ||| (x >>> (32 - s))

/-- The 64 MD5 sine-derived constants. -/
def md5K : List Nat :=
  [3614090360, 3905402710, 606105819, 3250441966,
   4118548399, 1200080426, 2821735955, 4249261313,
   1770035416, 2336552879, 4294925233, 2304563134,
   1804603682, 4254626195, 2792965006, 1236535329,
   4129170786, 3225465664, 643717713, 3921069994,
   3593408605, 38016083, 3634488961, 3889429448,
   568446438, 3275163606, 4107603335, 1163531501,
   2850285829, 4243563512, 1735328473, 2368359562,
   4294588738, 2272392833, 1839030562, 4259657740,
   2763975236, 1272893353, 4139469664, 3200236656,
   681279174, 3936430074, 3572445317, 76029189,
   3654602809, 3873151461, 530742520, 3299628645,
   4096336452, 1126891415, 2878612391, 4237533241,
   1700485571, 2399980690, 4293915773, 2240044497,
   1873313359, 4264355552, 2734768916, 1309151649,
   4149444226, 3174756917, 718787259, 3951481745]

/-- The 64 MD5 per-round left-rotation amounts. -/
def md5S : List Nat :=
  [7, 12, 17, 22, 7, 12, 17, 22, 7, 12, 17, 22, 7, 12, 17, 22,
   5, 9, 14, 20, 5, 9, 14, 20, 5, 9, 14, 20, 5, 9, 14, 20,
   4, 11, 16, 23, 4, 11, 16, 23, 4, 11, 16, 23, 4, 11, 16, 23,
   6, 10, 15, 21, 6, 10, 15, 21, 6, 10, 15, 21, 6, 10, 15, 21]

structure MD5St where
  a : Nat
  b : Nat
  c : Nat
  d : Nat

/-- One MD5 round: `M` gives the 16 message words of the current block. -/
def md5Round (M : Nat → Nat) (st : MD5St) (i : Nat) : MD5St :=
  let fg : Nat × Nat :=
    if i < 16 then ((st.b &&& st.c) ||| (bnot32 st.b &&& st.d), i)
    else if i < 32 then ((st.d &&& st.b) ||| (bnot32 st.d &&& st.c), (5 * i + 1) % 16)
    else if i < 48 then (st.b ^^^ st.c ^^^ st.d, (3 * i + 5) % 16)
    else (st.c ^^^ (st.b ||| bnot32 st.d), (7 * i) % 16)
  let f := u32 (fg.1 + st.a + md5K.getD i 0 + M fg.2)
  { a := st.d, d := st.c, c := st.b, b := u32 (st.b + rotl32 f (md5S.getD i 0)) }

/-- Little-endian byte rendering of `v` on `n` bytes. -/
def leBytes (n v : Nat) : List Nat := (List.range n).map fun i => (v / 256 ^ i) % 256

/-- MD5 padding: `0x80`, zeros to 56 mod 64, then the bit length on 8
little-endian bytes. -/
def md5Pad (msg : List Nat) : List Nat :=
  let len := msg.length
  let zeros := (119 - len % 64) % 64
  msg ++ 128 :: List.replicate zeros 0 ++ leBytes 8 (8 * len)

/-- Split a list into chunks; the first chunk takes `cap + 1` elements,
later chunks take `k` elements.  Structural recursion on the input list. -/
def chunkGo (k : Nat) : List α → Nat → List α → List (List α)
  | [], _, acc => if acc.isEmpty then [] else [acc.reverse]
  | x :: xs, Nat.succ c, acc => chunkGo k xs c (x :: acc)
  | x :: xs, 0, acc => acc.reverse :: chunkGo k xs (k - 1) [x]

/-- Split a list into consecutive chunks of size `k` (last chunk may be
shorter). -/
def chunks (k : Nat) (xs : List α) : List (List α) := chunkGo k xs k []

/-- Process one 64-byte block. -/
def md5Block (st : MD5St) (blk : List Nat) : MD5St :=
  let M : Nat → Nat := fun g =>
    blk.getD (4 * g) 0 + 256 * blk.getD (4 * g + 1) 0 +
      65536 * blk.getD (4 * g + 2) 0 + 16777216 * blk.getD (4 * g + 3) 0
  let e := (List.range 64).foldl (md5Round M) st
  { a := u32 (st.a + e.a), b := u32 (st.b + e.b),
    c := u32 (st.c + e.c), d := u32 (st.d + e.d) }

def hexDigit (n : Nat) : Char :=
  if n < 10 then Char.ofNat (48 + n) else Char.ofNat (87 + n)

def byteHex (b : Nat) : List Char := [hexDigit (b / 16), hexDigit (b % 16)]

/-- The lowercase hex MD5 digest of a byte list (`hashlib.md5(...).hexdigest()`). -/
def md5Hex (msg : List Nat) : String :=
  let init : MD5St := ⟨1732584193, 4023233417, 2562383102, 271733878⟩
  let st := (chunks 64 (md5Pad msg)).foldl md5Block init
  String.mk ((([st.a, st.b, st.c, st.d].map (leBytes 4)).flatten.map byteHex).flatten)

/-! ### The identifier hash `md5_id` (src/etl/utils.py, lines 7-14) -/

/-- The string a part contributes: `None` is replaced by `""` before
`str(...)`, any other value is rendered with `str(...)`. -/
def md5PartStr : PyVal → String
  | .none => ""
  | v => pyStr v

/-- The exact byte string `md5_id` feeds to the digest: each part's UTF-8
rendering followed by the `b"|"` separator (byte 124). -/
def md5Bytes (parts : List PyVal) : List Nat :=
  (parts.map fun p => utf8 (md5PartStr p) ++ [124]).flatten

/-- `md5_id(*parts)` from src/etl/utils.py: hash each part's string
rendering plus a `|` separator, return the hex digest. -/
def md5_id (parts : List PyVal) : String := md5Hex (md5Bytes parts)

/-- Shorthand used by the adapters, which pass string literals. -/
def sv (s : String) : PyVal := PyVal.str s

/-! ### Price and currency parsing (src/etl/utils.py, lines 28-53) -/

/-- The characters of Python's `[0-9]` class. -/
def isDigit (c : Char) : Bool := 48 ≤ c.toNat && c.toNat ≤ 57

/-- Python `\s` on the ASCII range (space, tab, newline, CR, VT, FF); the
inputs reaching the price parser contain no non-ASCII whitespace. -/
def isPySpace (c : Char) : Bool :=
  c.toNat = 32 || c.toNat = 9 || c.toNat = 10 || c.toNat = 13 ||
    c.toNat = 11 || c.toNat = 12

/-- The four currency symbols of the regex class `[$€£¥]`. -/
def isCurSym (c : Char) : Bool := c = '$' || c = '€' || c = '£' || c = '¥'

/-- `_cur_map.get(symbol or "", None)`: the fixed symbol table of
src/etl/utils.py, lines 28-33. -/
def curMap : Option Char → Option String
  | Option.none => Option.none
  | Option.some c =>
    if c = '$' then Option.some "USD"
    else if c = '€' then Option.some "EUR"
    else if c = '£' then Option.some "GBP"
    else if c = '¥' then Option.some "JPY"
    else Option.none

/-- Greedy match of `[0-9]+(?:[.,][0-9]{1,2})?` at the head of `cs`,
returning the matched characters (group 2 of `_price_re`). -/
def matchNum (cs : List Char) : Option (List Char) :=
  let ds := cs.takeWhile isDigit
  if ds.isEmpty then Option.none
  else
    match cs.drop ds.length with
    | [] => Option.some ds
    | sep :: t =>
      if sep = '.' || sep = ',' then
        -- `fs`: up to two fractional digits, greedily
        if ((t.takeWhile isDigit).take 2).isEmpty then Option.some ds
        else Option.some (ds ++ sep :: (t.takeWhile isDigit).take 2)
      else Option.some ds

/-- Attempt of `([$€£¥])?\s*([0-9]+(?:[.,][0-9]{1,2})?)` anchored at the
head of `cs`; returns the two regex groups.  When the optional symbol is
present but no number follows, the regex backtracks to the empty symbol,
which also fails because a symbol character is neither whitespace nor a
digit. -/
def tryMatchAt (cs : List Char) : Option (Option Char × List Char) :=
  match cs with
  | c :: t =>
    if isCurSym c then
      match matchNum (t.dropWhile isPySpace) with
      | Option.some num => Option.some (Option.some c, num)
      | Option.none => Option.none
    else
      (matchNum (cs.dropWhile isPySpace)).map fun num => (Option.none, num)
  | [] => Option.none

/-- `_price_re.search`: try the pattern at each position, leftmost match
wins. -/
def reSearchPrice : List Char → Option (Option Char × List Char)
  | [] => Option.none
  | c :: t =>
    match tryMatchAt (c :: t) with
    | Option.some r => Option.some r
    | Option.none => reSearchPrice t

/-- Decimal value of a digit list (most significant first). -/
def digitsVal (ds : List Char) : Nat := ds.foldl (fun a c => 10 * a + (c.toNat - 48)) 0

/-- The unsigned part of a Python `float` literal: digits with an
optional decimal point, evaluated as an exact decimal via `mkRat`. -/
def pyFloatMag (body : List Char) : Option ℚ :=
  let ip := body.takeWhile isDigit
  let rest := body.drop ip.length
  if rest.isEmpty then
    if ip.isEmpty then Option.none else Option.some (mkRat (digitsVal ip) 1)
  else if rest.head? = Option.some '.' then
    let t := rest.tail
    let fp := t.takeWhile isDigit
    if (t.drop fp.length).isEmpty then
      if ip.isEmpty && fp.isEmpty then Option.none
      else Option.some
        (mkRat (digitsVal ip * 10 ^ fp.length + digitsVal fp) (10 ^ fp.length))
    else Option.none
  else Option.none

/-- Python `float(s)` restricted to plain decimal literals: optional sign,
digits with an optional decimal point.  (`inf`/`nan`/exponents/padding
whitespace never occur on the strings this model feeds to `float`, and on
any other string the result is `none`, modelling the raised
`ValueError`.) -/
def pyFloat (s : String) : Option ℚ :=
  match s.data with
  | [] => Option.none
  | c :: t =>
    if c = '-' then (pyFloatMag t).map fun q => mkRat (-q.num) q.den
    else if c = '+' then pyFloatMag t
    else pyFloatMag (c :: t)

/-- `num.replace(",", "")`. -/
def stripCommas (cs : List Char) : List Char := cs.filter fun c => c ≠ ','

/-- `float(raw)` applied to the original (non-`None`) value in the
fallback branch: an `int` converts exactly, a string goes through the
literal parser; a parse failure means the `except` branch, i.e. `None`. -/
def pyFloatVal : PyVal → Option ℚ
  | .int n => Option.some (mkRat n 1)
  | v => pyFloat (pyStr v)

/-- `parse_price_currency` from src/etl/utils.py, lines 37-53, on the
values the adapters pass it (strings or `None`; an `int` cell is rendered
by `str` for the regex search and converted directly by the `float`
fallback). -/
def parse_price_currency (raw : PyVal) : Option ℚ × Option String :=
  if raw = PyVal.none then (Option.none, Option.none)
  else
    match reSearchPrice (pyStr raw).data with
    | Option.none =>
      -- fallback: `float(raw)`; an unparseable value means `(None, None)`
      (pyFloatVal raw, Option.none)
    | Option.some (symbol, num) =>
      match pyFloat (String.mk (stripCommas num)) with
      | Option.some v => (Option.some v, curMap symbol)
      | Option.none => (Option.none, curMap symbol)

/-! ### Text normalization (src/etl/utils.py, lines 16-26) -/

/-- One pass of `_tag_re.sub(" ", s)` with `_tag_re = <[^>]+>`: each
maximal `<...>` group (at least one non-`>` character before the `>`)
becomes a single space.  Fuel-based recursion; `tagSub` supplies
`cs.length` as fuel, enough since every step consumes at least one
character. -/
def tagSubGo : Nat → List Char → List Char
  | 0, cs => cs
  | _ + 1, [] => []
  | fuel + 1, c :: t =>
    if c = '<' then
      match t.findIdx? (fun x => x = '>') with
      | Option.some j =>
        if j = 0 then c :: tagSubGo fuel t
        else ' ' :: tagSubGo fuel (t.drop (j + 1))
      | Option.none => c :: tagSubGo fuel t
    else c :: tagSubGo fuel t

def tagSub (cs : List Char) : List Char := tagSubGo cs.length cs

/-- `_ws_re.sub(" ", s)` with `_ws_re = \s+`: collapse each whitespace run
to one space. -/
def wsCollapseGo : Nat → List Char → List Char
  | 0, cs => cs
  | _ + 1, [] => []
  | fuel + 1, c :: t =>
    if isPySpace c then ' ' :: wsCollapseGo fuel (t.dropWhile isPySpace)
    else c :: wsCollapseGo fuel t

def wsCollapse (cs : List Char) : List Char := wsCollapseGo cs.length cs

/-- Python `str.strip()` on the modelled whitespace set. -/
def pyStrip (cs : List Char) : List Char :=
  ((cs.dropWhile isPySpace).reverse.dropWhile isPySpace).reverse

/-- `normalize_text` from src/etl/utils.py, lines 19-26: `None` passes
through; otherwise NFKC-normalize `str(s)` (NFKC is the identity on the
ASCII data modelled here), strip HTML-like tags, collapse whitespace and
trim. -/
def normalize_text (v : PyVal) : Option String :=
  match v with
  | .none => Option.none
  | _ => Option.some (String.mk (pyStrip (wsCollapse (tagSub (pyStr v).data))))

/-! ### Attribute-bag serialization (src/etl/utils.py, lines 55-56) -/

/-- JSON string escaping as `json.dumps(..., ensure_ascii=False)` performs
it: backslash, double quote, and the control characters below 0x20. -/
def jsonEscapeChar (c : Char) : List Char :=
  let bs := Char.ofNat 92
  if c = Char.ofNat 34 then [bs, Char.ofNat 34]
  else if c = bs then [bs, bs]
  else if c.toNat = 8 then [bs, 'b']
  else if c.toNat = 9 then [bs, 't']
  else if c.toNat = 10 then [bs, 'n']
  else if c.toNat = 12 then [bs, 'f']
  else if c.toNat = 13 then [bs, 'r']
  else if c.toNat < 32 then
    [bs, 'u', '0', '0', hexDigit (c.toNat / 16), hexDigit (c.toNat % 16)]
  else [c]

def jsonString (s : String) : List Char :=
  Char.ofNat 34 :: (s.data.map jsonEscapeChar).flatten ++ [Char.ofNat 34]

/-- A JSON scalar for one row value: `null`, a quoted string, or an
integer. -/
def jsonVal : PyVal → List Char
  | .none => "null".data
  | .str s => jsonString s
  | .int n => (toString n).data

/-- `to_json_text` from src/etl/utils.py, lines 55-56, on a row fragment:
`json.dumps(d, ensure_ascii=False, separators=(",", ":"))`, keys in row
order. -/
def to_json_text (d : List (String × PyVal)) : String :=
  let inner := ((d.map fun kv => jsonString kv.1 ++ ':' :: jsonVal kv.2).intersperse [',']).flatten
  String.mk (Char.ofNat 123 :: inner ++ [Char.ofNat 125])

/-! ### Rows, tables and the canonical record shapes -/

/-- A raw source row: column name to value, in file order.  (The pandas
`.strip()` renaming of column headers is taken as already applied to the
modelled tables, as pandas applies it before any row is read.) -/
abbrev Row := List (String × PyVal)

/-- `r.get(c)` on a pandas row: the value under column `c`, or `None`. -/
def rGet (r : Row) (c : String) : PyVal :=
  ((r.find? fun kv => kv.1 = c).map Prod.snd).getD PyVal.none

/-- `r.get(c)` where `c` is the result of a column heuristic: a `None`
column name yields `None` (the `Series.get` default). -/
def rGetOpt (r : Row) : Option String → PyVal
  | Option.none => PyVal.none
  | Option.some c => rGet r c

def optPy : Option String → PyVal
  | Option.none => PyVal.none
  | Option.some s => PyVal.str s

/-- Python `str.lower()` on the ASCII data modelled here: character-wise
lower-casing. -/
def pyLower (s : String) : String := String.mk (s.data.map Char.toLower)

/-- Whether `pre` is a prefix of the first list. -/
def listStartsWith : List Char → List Char → Bool
  | _, [] => true
  | [], _ :: _ => false
  | x :: xs, y :: ys => x = y && listStartsWith xs ys

/-- Whether `needle` occurs as a contiguous run inside `hay`. -/
def listHasInfix (needle : List Char) : List Char → Bool
  | [] => needle.isEmpty
  | x :: xs => listStartsWith (x :: xs) needle || listHasInfix needle xs

/-- Python `needle in hay` on strings: substring containment. -/
def pyIn (needle hay : String) : Bool := listHasInfix needle.data hay.data

/-- `dict(zip(ks, vs)).get(k)`: later duplicate keys win. -/
def dictGet (m : List (String × String)) (k : String) : Option String :=
  (m.reverse.find? fun kv => kv.1 = k).map Prod.snd

/-- Parsing a string as a Python `int` literal: optional sign, then
decimal digits; anything else fails. -/
def pyParseInt (s : String) : Option Int :=
  match s.data with
  | '-' :: t => if !t.isEmpty && t.all isDigit then Option.some (-(digitsVal t : Int)) else Option.none
  | '+' :: t => if !t.isEmpty && t.all isDigit then Option.some (digitsVal t : Int) else Option.none
  | cs => if !cs.isEmpty && cs.all isDigit then Option.some (digitsVal cs : Int) else Option.none

/-- Python `int(...)` on a cell value: an int passes through, a decimal
string parses; any other value makes `int()` raise (`ValueError`, or
`TypeError` for `None`), modelled as `none`. -/
def pyToInt : PyVal → Option Int
  | .int n => Option.some n
  | .str s => pyParseInt s
  | .none => Option.none

/-- A canonical `items` row, with the fields the adapters emit. -/
structure ItemRec where
  item_id : String
  dataset : String
  dataset_item_key : PyVal
  merchant : PyVal
  site : PyVal
  locale : PyVal
  brand : PyVal
  title : Option String
  description : Option String
  bullet_points : Option String
  color : PyVal
  price : Option ℚ
  currency : PyVal
  category : PyVal
  image_url : PyVal
  attrs : String
  split : PyVal
  variant : PyVal
  version : PyVal
deriving DecidableEq

/-- A canonical `item_item_pairs` row. -/
structure PairRec where
  left_item_id : String
  right_item_id : String
  label : PyVal
  pair_source : String
  split : PyVal
  variant : PyVal
deriving DecidableEq

/-- A canonical `query_item_labels` row. -/
structure QLabelRec where
  query_id : Option String
  item_id : Option String
  label_family : String
  label : PyVal
  position : PyVal
  session_id : PyVal
  timeframe_ms : PyVal
  split : PyVal
deriving DecidableEq

/-- A canonical `entities` row. -/
structure EntityRec where
  entity_id : String
  dataset : String
  notes : PyVal
deriving DecidableEq

/-- A canonical `item_entity` row. -/
structure LinkRec where
  item_id : String
  entity_id : String
deriving DecidableEq

/-! ### Two-table adapter (src/etl/abt_buy.py) -/

/-- A row of `TableA.csv`, read with fixed column names
`["id","name","description"]` and `dtype=str`. -/
structure AbtRow where
  id : PyVal
  name : PyVal
  description : PyVal

/-- A row of `TableB.csv`, columns
`["id","name","description","manufacturer","price"]`. -/
structure BuyRow where
  id : PyVal
  name : PyVal
  description : PyVal
  manufacturer : PyVal
  price : PyVal

/-- A row of `matches.csv`, columns `["tablea_id","tableb_id"]`. -/
structure MapRow where
  tablea_id : PyVal
  tableb_id : PyVal

/-- The TableA item record (src/etl/abt_buy.py, lines 26-48).  TableA has
no `price` column, so `r.get("price")` is `None`. -/
def abtItem (r : AbtRow) : ItemRec :=
  let pc := parse_price_currency PyVal.none
  { item_id := md5_id [sv "abt_buy", sv "tablea", r.id]
    dataset := "abt_buy"
    dataset_item_key := PyVal.str ("tablea:" ++ pyStr r.id)
    merchant := PyVal.str "tablea"
    site := PyVal.str "tablea.com"
    locale := PyVal.none
    brand := PyVal.none
    title := normalize_text r.name
    description := normalize_text r.description
    bullet_points := Option.none
    color := PyVal.none
    price := pc.1
    currency := optPy pc.2
    category := PyVal.none
    image_url := PyVal.none
    attrs := to_json_text []
    split := PyVal.none
    variant := PyVal.none
    version := PyVal.none }

def buyRowItems (r : BuyRow) : List (String × PyVal) :=
  [("id", r.id), ("name", r.name), ("description", r.description),
   ("manufacturer", r.manufacturer), ("price", r.price)]

/-- The TableB item record (src/etl/abt_buy.py, lines 52-75). -/
def buyItem (r : BuyRow) : ItemRec :=
  let pc := parse_price_currency r.price
  { item_id := md5_id [sv "abt_buy", sv "tableb", r.id]
    dataset := "abt_buy"
    dataset_item_key := PyVal.str ("tableb:" ++ pyStr r.id)
    merchant := PyVal.str "tableb"
    site := PyVal.str "tableb.com"
    locale := PyVal.none
    brand := r.manufacturer
    title := normalize_text r.name
    description := normalize_text r.description
    bullet_points := Option.none
    color := PyVal.none
    price := pc.1
    currency := optPy pc.2
    category := PyVal.none
    image_url := PyVal.none
    attrs := to_json_text ((buyRowItems r).filter fun kv =>
      kv.1 ∉ ["id", "name", "description", "price", "manufacturer"])
    split := PyVal.none
    variant := PyVal.none
    version := PyVal.none }

/-- One gold-mapping row becomes one pair (src/etl/abt_buy.py,
lines 90-100). -/
def abtPair (m : MapRow) : PairRec :=
  { left_item_id := md5_id [sv "abt_buy", sv "tablea", m.tablea_id]
    right_item_id := md5_id [sv "abt_buy", sv "tableb", m.tableb_id]
    label := PyVal.str "match"
    pair_source := "gold"
    split := PyVal.none
    variant := PyVal.none }

structure AbtEmission where
  items : List ItemRec
  pairs : List PairRec

/-- `load_abt_buy` (src/etl/abt_buy.py): items from both tables, then one
gold pair per mapping row. -/
def load_abt_buy (abt : List AbtRow) (buy : List BuyRow) (mapping : List MapRow) : AbtEmission :=
  { items := abt.map abtItem ++ buy.map buyItem
    pairs := mapping.map abtPair }

/-! ### Session/log adapter (src/etl/cikm16.py) -/

/-- A source table: header columns in file order, then rows. -/
structure Table where
  cols : List String
  rows : List Row

/-- Identifier-role allow-list of `_load_products` (line 17). -/
def cikmIdCol (cols : List String) : Option String :=
  cols.find? fun c => pyLower c ∈ ["productid", "product_id", "itemid", "item_id", "id"]

def cikmTitleCol (cols : List String) : Option String :=
  cols.find? fun c => pyIn "title" (pyLower c) || pyIn "name" (pyLower c)

def cikmDescCol (cols : List String) : Option String :=
  cols.find? fun c => pyIn "desc" (pyLower c)

def cikmBrandCol (cols : List String) : Option String :=
  cols.find? fun c => pyIn "brand" (pyLower c)

def cikmPriceCol (cols : List String) : Option String :=
  cols.find? fun c => pyIn "price" (pyLower c)

/-- The category lookup of `_load_products` (lines 23-31): built only when
`product-categories.csv` exists and both its columns resolve. -/
def cikmCatMap (cats : Option Table) : List (String × String) :=
  match cats with
  | Option.none => []
  | Option.some t =>
    match cikmIdCol t.cols, t.cols.find? fun c => pyIn "category" (pyLower c) with
    | Option.some pidc, Option.some catc =>
      t.rows.map fun r => (pyStr (rGet r pidc), pyStr (rGet r catc))
    | _, _ => []

/-- One product row of `_load_products` (lines 34-57).  When the
identifier role is unresolved, `str(r.get(None))` renders Python `None`
as the string `"None"`. -/
def cikmItem (idc titlec descc brandc pricec : Option String)
    (catMap : List (String × String)) (r : Row) : ItemRec :=
  let pid := pyStr (rGetOpt r idc)
  let pc := match pricec with
    | Option.some c => parse_price_currency (rGet r c)
    | Option.none => (Option.none, Option.none)
  { item_id := md5_id [sv "cikm16", sv pid]
    dataset := "cikm16"
    dataset_item_key := PyVal.str pid
    merchant := PyVal.none
    site := PyVal.none
    locale := PyVal.none
    brand := rGetOpt r brandc
    title := match titlec with
      | Option.some c => normalize_text (rGet r c)
      | Option.none => Option.none
    description := match descc with
      | Option.some c => normalize_text (rGet r c)
      | Option.none => Option.none
    bullet_points := Option.none
    color := PyVal.none
    price := pc.1
    currency := optPy pc.2
    category := optPy (dictGet catMap pid)
    image_url := PyVal.none
    attrs := to_json_text (r.filter fun kv =>
      kv.1 ∉ ([idc, titlec, descc, brandc, pricec].filterMap id))
    split := PyVal.str "train"
    variant := PyVal.none
    version := PyVal.none }

/-- `_load_products` (src/etl/cikm16.py, lines 7-59): resolve the five
semantic roles on the product table, then map every row. -/
def load_cikm16_products (prods : Table) (cats : Option Table) : List ItemRec :=
  prods.rows.map
    (cikmItem (cikmIdCol prods.cols) (cikmTitleCol prods.cols) (cikmDescCol prods.cols)
      (cikmBrandCol prods.cols) (cikmPriceCol prods.cols) (cikmCatMap cats))

/-- One interaction row of `_load_interactions` (lines 105-120).  The
`int(r.get(pos))` and `int(r.get(timeframe))` conversions (lines 116 and
118) raise `ValueError` on an unparseable cell; `none` models that raise,
which aborts the load.  The position conversion is evaluated before the
timeframe one, as in the dict literal. -/
def cikmInteraction (qidc sessc itemc tfc posc : Option String)
    (label_family : String) (r : Row) : Option QLabelRec :=
  let native_qid : Option String :=
    match qidc with
    | Option.some c => Option.some (pyStr (rGet r c))
    | Option.none =>
      match sessc with
      | Option.some c => Option.some (pyStr (rGet r c))
      | Option.none => Option.none
  let posVal : Option PyVal :=
    match posc with
    | Option.some c =>
      if rGet r c ≠ PyVal.none then (pyToInt (rGet r c)).map PyVal.int
      else Option.some PyVal.none
    | Option.none => Option.some PyVal.none
  let tfVal : Option PyVal :=
    match tfc with
    | Option.some c =>
      if rGet r c ≠ PyVal.none then (pyToInt (rGet r c)).map PyVal.int
      else Option.some PyVal.none
    | Option.none => Option.some PyVal.none
  match posVal with
  | Option.none => Option.none
  | Option.some p =>
    match tfVal with
    | Option.none => Option.none
    | Option.some t =>
      Option.some
        { query_id :=
            match native_qid with
            | Option.some s =>
              if s ≠ "" then Option.some (md5_id [sv "cikm16", sv s]) else Option.none
            | Option.none => Option.none
          item_id :=
            match itemc with
            | Option.some c =>
              let s := pyStr (rGet r c)
              if s ≠ "" then Option.some (md5_id [sv "cikm16", sv s]) else Option.none
            | Option.none => Option.none
          label_family := label_family
          label := if label_family ∈ ["click", "purchase", "view"] then PyVal.int 1
            else PyVal.none
          position := p
          session_id :=
            match sessc with
            | Option.some c => PyVal.str (pyStr (rGet r c))
            | Option.none => PyVal.none
          timeframe_ms := t
          split := PyVal.str "train" }

/-- The per-row mapping determined by the column resolution of
`_load_interactions` (lines 99-103); the resolution is recomputed inside
every chunk, but every chunk of one file carries the same header. -/
def cikmRowFun (cols : List String) (label_family : String) : Row → Option QLabelRec :=
  let qidc := cols.find? fun c => pyIn "queryid" (pyLower c)
  let sessc := cols.find? fun c => pyIn "session" (pyLower c)
  let itemc := cols.find? fun c => pyLower c ∈ ["itemid", "productid", "item_id", "product_id"]
  let tfc := cols.find? fun c => pyIn "timeframe" (pyLower c)
  let posc := cols.find? fun c => pyLower c ∈ ["position", "rank"]
  cikmInteraction qidc sessc itemc tfc posc label_family

/-- The row loop over one chunk (lines 105-120): rows are accumulated in
order; the first row whose `int()` conversion raises aborts the loop, so
nothing of that chunk reaches `append_df`. -/
def chunkBatch (f : Row → Option QLabelRec) : List Row → Option (List QLabelRec)
  | [] => Option.some []
  | r :: rest =>
    match f r with
    | Option.none => Option.none
    | Option.some q => (chunkBatch f rest).map fun out => q :: out

/-- The chunk loop of `_load_interactions` (lines 97-122): each chunk's
batch is appended to the sink before the next chunk is read.  `ok out`
means the whole log was processed and `out` emitted; `error out` means a
row's `int()` raised after the batches in `out` had already been
appended — the load aborts with exactly `out` emitted. -/
def loadInteractionsGo (f : Row → Option QLabelRec) :
    List (List Row) → Except (List QLabelRec) (List QLabelRec)
  | [] => Except.ok []
  | ch :: rest =>
    match chunkBatch f ch with
    | Option.none => Except.error []
    | Option.some out =>
      match loadInteractionsGo f rest with
      | Except.ok tail => Except.ok (out ++ tail)
      | Except.error tail => Except.error (out ++ tail)

/-- `_load_interactions` (src/etl/cikm16.py, lines 92-122): read the log
in chunks of `k` rows, emitting one `query_item_labels` row per input row
chunk by chunk; an unparseable `position`/`timeframe` cell raises and
aborts the load after the preceding chunks were emitted. -/
def load_interactions (k : Nat) (cols : List String) (rows : List Row)
    (label_family : String) : Except (List QLabelRec) (List QLabelRec) :=
  loadInteractionsGo (cikmRowFun cols label_family) (chunks k rows)

deriving instance DecidableEq for Except

/-! ### Relevance-benchmark adapter items (src/etl/esci.py, lines 22-48) -/

/-- One product row of `load_esci`: the item hash input is
`("esci", locale, native product id)`. -/
def esciItem (r : Row) : ItemRec :=
  let pid := pyStr (rGet r "product_id")
  let loc := rGet r "product_locale"
  { item_id := md5_id [sv "esci", loc, sv pid]
    dataset := "esci"
    dataset_item_key := PyVal.str (pyStr loc ++ ":" ++ pid)
    merchant := PyVal.none
    site := PyVal.none
    locale := loc
    brand := rGet r "product_brand"
    title := normalize_text (rGet r "product_title")
    description := normalize_text (rGet r "product_description")
    bullet_points := normalize_text (rGet r "product_bullet_point")
    color := rGet r "product_color"
    price := Option.none
    currency := PyVal.none
    category := PyVal.none
    image_url := PyVal.none
    attrs := to_json_text (r.filter fun kv =>
      kv.1 ∉ ["product_id", "product_locale", "product_brand", "product_title",
              "product_description", "product_bullet_point", "product_color"])
    split := PyVal.none
    variant := PyVal.none
    version := PyVal.none }

/-! ### Multi-variant adapter (src/etl/wdc_products.py) -/

/-- A candidate file in a variant directory: file name, whether it is a
`.tsv` (otherwise `.csv`), header columns and rows.  Only readable
delimited files are modelled (the detection loops skip unreadable files
via `try`/`except`). -/
structure FileModel where
  name : String
  isTsv : Bool
  cols : List String
  rows : List Row

/-- The offers column set required by `_detect_offers_file` (lines 13, 21). -/
def wdcOffersCols : List String :=
  ["id", "title", "description", "price", "pricecurrency", "brand"]

def hasOffersCols (f : FileModel) : Bool :=
  wdcOffersCols.all fun k => (f.cols.map pyLower).contains k

/-- `_detect_offers_file` (lines 6-23): first `*.csv` whose lower-cased
header contains all six offers columns, else the first such `*.tsv`. -/
def detectOffers (files : List FileModel) : Option FileModel :=
  match (files.filter fun f => !f.isTsv).find? hasOffersCols with
  | Option.some f => Option.some f
  | Option.none => (files.filter fun f => f.isTsv).find? hasOffersCols

def hasPairCols (f : FileModel) : Bool :=
  ["left_id", "right_id", "label"].all fun k => (f.cols.map pyLower).contains k

/-- `_detect_pairs_file` (lines 25-40): `pairs`-named candidates first,
then any `*.csv`, accepted when the header carries
`left_id`/`right_id`/`label`. -/
def detectPairs (files : List FileModel) : Option FileModel :=
  match (files.filter fun f => pyIn "pairs" f.name).find? hasPairCols with
  | Option.some f => Option.some f
  | Option.none => (files.filter fun f => !f.isTsv).find? hasPairCols

def hasMulticlassCols (f : FileModel) : Bool :=
  (["offer_id", "id", "item_id"].any fun k => (f.cols.map pyLower).contains k) &&
    f.cols.any fun c => pyIn "entity" (pyLower c)

/-- `_detect_multiclass_file` (lines 42-51): `*.csv` candidates whose name
mentions `offer_to_entity`, `offer`+`entity` or `multi`, accepted when an
offer-id column and an `entity` column are present. -/
def detectMulticlass (files : List FileModel) : Option FileModel :=
  (files.filter fun f =>
      !f.isTsv && (pyIn "offer_to_entity" f.name ||
        (pyIn "offer" f.name && pyIn "entity" f.name) || pyIn "multi" f.name)).find?
    hasMulticlassCols

def stripStr (s : String) : String := String.mk (pyStrip s.data)

/-- One offers row (src/etl/wdc_products.py, lines 63-86).  The item hash
input is `("wdc", native offer id)` — the variant tag is *not* hashed. -/
def wdcItem (variant_name split : Option String) (r : Row) : ItemRec :=
  let oid := pyStr (rGet r "id")
  let pc := parse_price_currency (rGet r "price")
  { item_id := md5_id [sv "wdc", sv oid]
    dataset := "wdc"
    dataset_item_key := PyVal.str oid
    merchant := PyVal.none
    site := PyVal.none
    locale := PyVal.none
    brand := rGet r "brand"
    title := normalize_text (rGet r "title")
    description := normalize_text (rGet r "description")
    bullet_points := Option.none
    color := PyVal.none
    price := pc.1
    -- `r.get("pricecurrency") or currency`
    currency := if pyTruthy (rGet r "pricecurrency") then rGet r "pricecurrency" else optPy pc.2
    category := PyVal.none
    image_url := PyVal.none
    attrs := to_json_text (r.filter fun kv => kv.1 ∉ wdcOffersCols)
    split := optPy split
    variant := optPy variant_name
    version := PyVal.str "2024" }

/-- One benchmark pair row (lines 102-110). -/
def wdcPair (variant_name split : Option String) (r : Row) : PairRec :=
  { left_item_id := md5_id [sv "wdc", sv (pyStr (rGet r "left_id"))]
    right_item_id := md5_id [sv "wdc", sv (pyStr (rGet r "right_id"))]
    label := if rGet r "label" ≠ PyVal.none
      then PyVal.str (pyLower (pyStr (rGet r "label"))) else PyVal.none
    pair_source := "benchmark"
    split := optPy split
    variant := optPy variant_name }

/-- First-occurrence deduplication, as pandas `.unique()` orders it. -/
def firstDedupGo (seen : List String) : List String → List String
  | [] => []
  | x :: xs =>
    if x ∈ seen then firstDedupGo seen xs else x :: firstDedupGo (x :: seen) xs

structure WdcEmission where
  items : List ItemRec
  pairs : List PairRec
  entities : List EntityRec
  links : List LinkRec

/-- `load_wdc_variant` (src/etl/wdc_products.py, lines 53-133): a missing
offers file raises `FileNotFoundError` before anything is emitted; a
missing pairs or multi-class file only leaves that part of the emission
empty. -/
def load_wdc_variant (files : List FileModel) (variant_name split : Option String) :
    Except String WdcEmission :=
  match detectOffers files with
  | Option.none => Except.error "No offers file with expected columns found"
  | Option.some f =>
    let items := f.rows.map (wdcItem variant_name split)
    let pairs := match detectPairs files with
      | Option.none => []
      | Option.some pf => pf.rows.map (wdcPair variant_name split)
    let entLinks : List EntityRec × List LinkRec :=
      match detectMulticlass files with
      | Option.none => ([], [])
      | Option.some mf =>
        let mcols := mf.cols.map fun c => pyLower (stripStr c)
        match mcols.find? (fun c => c ∈ ["offer_id", "id", "item_id"]),
            mcols.find? (fun c => pyIn "entity" c) with
        | Option.some oc, Option.some ec =>
          (((firstDedupGo [] (mf.rows.map fun r => pyStr (rGet r ec))).map fun e =>
              { entity_id := "wdc:" ++ e, dataset := "wdc", notes := optPy variant_name }),
           mf.rows.map fun r =>
              { item_id := md5_id [sv "wdc", sv (pyStr (rGet r oc))]
                entity_id := "wdc:" ++ pyStr (rGet r ec) })
        | _, _ => ([], [])
    Except.ok { items := items, pairs := pairs, entities := entLinks.1, links := entLinks.2 }

/-- Split inference of `load_wdc` (lines 144-150): the first vocabulary
token occurring in the lower-cased variant directory name. -/
def inferSplit (name : String) : Option String :=
  ["train", "val", "valid", "validation", "test", "dev"].find? fun tok => pyIn tok (pyLower name)

/-! ## Helper lemmas -/

theorem md5Bytes_str_cons (s : String) (ps : List PyVal) :
    md5Bytes (sv s :: ps) = utf8 s ++ 124 :: md5Bytes ps := by
  simp [md5Bytes, sv, md5PartStr, pyStr]

theorem md5Bytes_ne_of_head_ne {s1 s2 : String} {l1 l2 : List PyVal}
    {b1 b2 : Nat} {t1 t2 : List Nat}
    (h1 : utf8 s1 = b1 :: t1) (h2 : utf8 s2 = b2 :: t2) (hb : b1 ≠ b2) :
    md5Bytes (sv s1 :: l1) ≠ md5Bytes (sv s2 :: l2) := by
  rw [md5Bytes_str_cons, md5Bytes_str_cons, h1, h2]
  intro h
  simp only [List.cons_append] at h
  exact hb (by injection h)

theorem chunkGo_flatten {α : Type} (k : Nat) :
    ∀ (xs acc : List α) (c : Nat), (chunkGo k xs c acc).flatten = acc.reverse ++ xs := by
  intro xs
  induction xs with
  | nil =>
    intro acc c
    cases acc with
    | nil => simp [chunkGo]
    | cons y ys => simp [chunkGo]
  | cons x xs ih =>
    intro acc c
    cases c with
    | zero => simp [chunkGo, ih]
    | succ c => simp [chunkGo, ih]

theorem chunks_flatten {α : Type} (k : Nat) (xs : List α) : (chunks k xs).flatten = xs := by
  simp [chunks, chunkGo_flatten]

/-! ## Claim theorems -/

set_option maxRecDepth 1000000

/-- C2: the identifier hash separates part boundaries: the three digests
of `("ds","a","1")`, `("ds","a1")` and `("ds","ab","")` are pairwise
distinct, and `("ab","c")` does not collide with `("a","bc")`, because
every part is followed by the `|` separator before being fed to the MD5
digest of the UTF-8 encoding. -/
theorem c2_separator_distinct :
    md5_id [sv "ds", sv "a", sv "1"] ≠ md5_id [sv "ds", sv "a1"] ∧
    md5_id [sv "ds", sv "a", sv "1"] ≠ md5_id [sv "ds", sv "ab", sv ""] ∧
    md5_id [sv "ds", sv "a1"] ≠ md5_id [sv "ds", sv "ab", sv ""] ∧
    md5_id [sv "ab", sv "c"] ≠ md5_id [sv "a", sv "bc"] := by
  refine ⟨by decide, by decide, by decide, by decide⟩

/-- C9: the multi-variant adapter infers the split tag from the variant
directory name by substring search over the fixed vocabulary
`train`,`val`,`valid`,`validation`,`test`,`dev`; the benchmark directory
name containing `train` yields `some "train"`, and a name containing no
vocabulary token yields `none`. -/
theorem c9_split_inference :
    inferSplit "wdcproducts80cc20rnd000un_train_large" = Option.some "train" ∧
    ∀ name : String,
      (∀ tok ∈ ["train", "val", "valid", "validation", "test", "dev"],
        pyIn tok (pyLower name) = false) →
      inferSplit name = Option.none := by
  constructor
  · decide
  · intro name h
    unfold inferSplit
    rw [List.find?_eq_none]
    intro tok htok
    simp [h tok htok]

/-- Witness for C9 at a concrete vocabulary-free directory name. -/
theorem c9_split_inference_witness : inferSplit "offers" = Option.none :=
  c9_split_inference.2 "offers" (by decide)

/-- C10: `md5_id` renders every non-`None` part with `str(...)` before
hashing, so replacing a part by its string rendering leaves the
identifier unchanged; in particular the integer `5` and the string `"5"`
hash identically. -/
theorem c10_str_coercion :
    (∀ (pre post : List PyVal) (p : PyVal), p ≠ PyVal.none →
      md5_id (pre ++ p :: post) = md5_id (pre ++ PyVal.str (pyStr p) :: post)) ∧
    md5_id [PyVal.int 5] = md5_id [sv "5"] := by
  constructor
  · intro pre post p hp
    have hps : md5PartStr p = md5PartStr (PyVal.str (pyStr p)) := by
      cases p with
      | none => exact absurd rfl hp
      | str s => rfl
      | int n => rfl
    simp only [md5_id, md5Bytes, List.map_append, List.map_cons, hps]
  · decide

/-- Witness for C10 at the part `5` inside a dataset-tagged tuple. -/
theorem c10_str_coercion_witness :
    md5_id [sv "cikm16", PyVal.int 5] =
      md5_id [sv "cikm16", PyVal.str (pyStr (PyVal.int 5))] :=
  c10_str_coercion.1 [sv "cikm16"] [] (PyVal.int 5) (by decide)

/-- C1 counterexample: the wdc adapter hashes only `("wdc", native id)`,
so two items built from the same native id in two *different variants* of
the wdc dataset receive the same `item_id` — the variant tag is not part
of the hash input, contradicting the claim. -/
theorem c1_counterexample :
    (wdcItem (Option.some "v1") Option.none [("id", sv "1")]).variant ≠
      (wdcItem (Option.some "v2") Option.none [("id", sv "1")]).variant ∧
    (wdcItem (Option.some "v1") Option.none [("id", sv "1")]).item_id =
      (wdcItem (Option.some "v2") Option.none [("id", sv "1")]).item_id := by
  exact ⟨by decide, rfl⟩

/-- C1 (amended): each adapter's `item_id` is the digest of the parts it
supplies, with the dataset tag (and for the two-table adapter the side
tag) leading the hash input; the digest pre-images for any two different
dataset tags — and for the two sides of the two-table adapter — never
coincide, whatever the native ids, and at representative native ids the
digests themselves differ; but the wdc adapter's hash input is only
`("wdc", native id)`, so the same native id in different wdc variants
yields the same `item_id`. -/
theorem c1_amended :
    (∀ v s r, (wdcItem v s r).item_id = md5_id [sv "wdc", sv (pyStr (rGet r "id"))]) ∧
    (∀ i t d b p cm r, (cikmItem i t d b p cm r).item_id =
      md5_id [sv "cikm16", sv (pyStr (rGetOpt r i))]) ∧
    (∀ r, (esciItem r).item_id =
      md5_id [sv "esci", rGet r "product_locale", sv (pyStr (rGet r "product_id"))]) ∧
    (∀ a, (abtItem a).item_id = md5_id [sv "abt_buy", sv "tablea", a.id]) ∧
    (∀ b, (buyItem b).item_id = md5_id [sv "abt_buy", sv "tableb", b.id]) ∧
    (∀ r1 r2 : List PyVal,
      md5Bytes (sv "wdc" :: r1) ≠ md5Bytes (sv "cikm16" :: r2) ∧
      md5Bytes (sv "wdc" :: r1) ≠ md5Bytes (sv "esci" :: r2) ∧
      md5Bytes (sv "wdc" :: r1) ≠ md5Bytes (sv "abt_buy" :: r2) ∧
      md5Bytes (sv "cikm16" :: r1) ≠ md5Bytes (sv "esci" :: r2) ∧
      md5Bytes (sv "cikm16" :: r1) ≠ md5Bytes (sv "abt_buy" :: r2) ∧
      md5Bytes (sv "esci" :: r1) ≠ md5Bytes (sv "abt_buy" :: r2) ∧
      md5Bytes (sv "abt_buy" :: sv "tablea" :: r1) ≠
        md5Bytes (sv "abt_buy" :: sv "tableb" :: r2)) ∧
    (md5_id [sv "wdc", sv "1"] ≠ md5_id [sv "cikm16", sv "1"] ∧
     md5_id [sv "wdc", sv "1"] ≠ md5_id [sv "esci", sv "us", sv "1"] ∧
     md5_id [sv "wdc", sv "1"] ≠ md5_id [sv "abt_buy", sv "tablea", sv "1"] ∧
     md5_id [sv "cikm16", sv "1"] ≠ md5_id [sv "esci", sv "us", sv "1"] ∧
     md5_id [sv "cikm16", sv "1"] ≠ md5_id [sv "abt_buy", sv "tablea", sv "1"] ∧
     md5_id [sv "esci", sv "us", sv "1"] ≠ md5_id [sv "abt_buy", sv "tablea", sv "1"]) ∧
    (∀ v1 v2 s r, (wdcItem v1 s r).item_id = (wdcItem v2 s r).item_id) := by
  refine ⟨fun v s r => rfl, fun i t d b p cm r => rfl, fun r => rfl,
    fun a => rfl, fun b => rfl, ?_, ?_, fun v1 v2 s r => rfl⟩
  · intro r1 r2
    have hw : utf8 "wdc" = 119 :: [100, 99] := by decide
    have hc : utf8 "cikm16" = 99 :: [105, 107, 109, 49, 54] := by decide
    have he : utf8 "esci" = 101 :: [115, 99, 105] := by decide
    have ha : utf8 "abt_buy" = 97 :: [98, 116, 95, 98, 117, 121] := by decide
    refine ⟨md5Bytes_ne_of_head_ne hw hc (by decide),
      md5Bytes_ne_of_head_ne hw he (by decide),
      md5Bytes_ne_of_head_ne hw ha (by decide),
      md5Bytes_ne_of_head_ne hc he (by decide),
      md5Bytes_ne_of_head_ne hc ha (by decide),
      md5Bytes_ne_of_head_ne he ha (by decide), ?_⟩
    intro h
    rw [md5Bytes_str_cons, md5Bytes_str_cons, md5Bytes_str_cons, md5Bytes_str_cons] at h
    have h2 : (utf8 "abt_buy" ++ 124 :: utf8 "tablea") ++ 124 :: md5Bytes r1 =
        (utf8 "abt_buy" ++ 124 :: utf8 "tableb") ++ 124 :: md5Bytes r2 := by
      simpa using h
    have hlen : (utf8 "abt_buy" ++ 124 :: utf8 "tablea").length =
        (utf8 "abt_buy" ++ 124 :: utf8 "tableb").length := by decide
    have := (List.append_inj h2 hlen).1
    exact absurd this (by decide)
  · refine ⟨by decide, by decide, by decide, by decide, by decide, by decide⟩

/-- C3 counterexample: the price regex captures at most two digits after
a single `.`/`,` separator, so `"€1,234.50"` matches as `1,23` and parses
to `123.0` with currency `EUR`, not to the claimed `1234.50`. -/
theorem c3_counterexample :
    parse_price_currency (sv "€1,234.50") = (Option.some (mkRat 123 1), Option.some "EUR") ∧
    (Option.some (mkRat 123 1), Option.some "EUR") ≠
      ((Option.some (mkRat 2469 2), Option.some "EUR") :
        Option ℚ × Option String) := by
  exact ⟨by decide, by decide⟩

/-- C3 (amended): `parse_price_currency` returns the spec's outputs on
the first, second and fourth examples, but `"€1,234.50"` yields
`(123.0, "EUR")` because the numeric pattern permits only one `.`/`,`
separator followed by 1-2 digits. -/
theorem c3_price_examples :
    parse_price_currency (sv "$19.99") = (Option.some (mkRat 1999 100), Option.some "USD") ∧
    parse_price_currency (sv "1234") = (Option.some (mkRat 1234 1), Option.none) ∧
    parse_price_currency (sv "€1,234.50") = (Option.some (mkRat 123 1), Option.some "EUR") ∧
    parse_price_currency (sv "n/a") = (Option.none, Option.none) := by
  refine ⟨by decide, by decide, by decide, by decide⟩

/-- C4: every gold-mapping row yields exactly one pair with label
`"match"` and source `"gold"`, whose two item ids equal the
independently computed item hashes `("abt_buy","tablea",left id)` and
`("abt_buy","tableb",right id)` — i.e. the `item_id` of the TableA/TableB
item with the same native id — and no non-match pair is emitted. -/
theorem c4_gold_pairs :
    ∀ (abt : List AbtRow) (buy : List BuyRow) (mapping : List MapRow),
      (load_abt_buy abt buy mapping).pairs = mapping.map abtPair ∧
      (load_abt_buy abt buy mapping).pairs.length = mapping.length ∧
      (∀ p ∈ (load_abt_buy abt buy mapping).pairs,
        p.label = PyVal.str "match" ∧ p.pair_source = "gold") ∧
      (∀ m : MapRow,
        (abtPair m).left_item_id = md5_id [sv "abt_buy", sv "tablea", m.tablea_id] ∧
        (abtPair m).right_item_id = md5_id [sv "abt_buy", sv "tableb", m.tableb_id]) ∧
      (∀ (m : MapRow) (a : AbtRow), a.id = m.tablea_id →
        (abtPair m).left_item_id = (abtItem a).item_id) ∧
      (∀ (m : MapRow) (b : BuyRow), b.id = m.tableb_id →
        (abtPair m).right_item_id = (buyItem b).item_id) := by
  intro abt buy mapping
  refine ⟨rfl, by simp [load_abt_buy], ?_, fun m => ⟨rfl, rfl⟩, ?_, ?_⟩
  · intro p hp
    simp only [load_abt_buy, List.mem_map] at hp
    obtain ⟨m, _, rfl⟩ := hp
    exact ⟨rfl, rfl⟩
  · intro m a h
    simp [abtPair, abtItem, h]
  · intro m b h
    simp [abtPair, buyItem, h]

/-- Witness for C4: the spec's example row with native ids `"a1"`/`"b2"`. -/
theorem c4_gold_pairs_witness :
    (abtPair (MapRow.mk (sv "a1") (sv "b2"))).left_item_id =
      (abtItem (AbtRow.mk (sv "a1") (sv "x") (sv "y"))).item_id ∧
    (abtPair (MapRow.mk (sv "a1") (sv "b2"))).right_item_id =
      (buyItem (BuyRow.mk (sv "b2") (sv "x") (sv "y") (sv "z") (sv "9"))).item_id :=
  ⟨(c4_gold_pairs [] [] []).2.2.2.2.1 (MapRow.mk (sv "a1") (sv "b2"))
      (AbtRow.mk (sv "a1") (sv "x") (sv "y")) (by decide),
    (c4_gold_pairs [] [] []).2.2.2.2.2 (MapRow.mk (sv "a1") (sv "b2"))
      (BuyRow.mk (sv "b2") (sv "x") (sv "y") (sv "z") (sv "9")) (by decide)⟩

/-- C8: for a variant directory, absence of a locatable offers file (one
whose lower-cased column set contains `id`,`title`,`description`,`price`,
`pricecurrency`,`brand`) makes `load_wdc_variant` fail before emitting
anything, while absence of a pairs file or a multi-class file leaves that
part of the emission empty with the items still loaded and no error. -/
theorem c8_missing_files :
    ∀ (files : List FileModel) (vn sp : Option String),
      (detectOffers files = Option.none →
        load_wdc_variant files vn sp =
          Except.error "No offers file with expected columns found") ∧
      (∀ f, detectOffers files = Option.some f →
        (load_wdc_variant files vn sp).map WdcEmission.items =
          Except.ok (f.rows.map (wdcItem vn sp))) ∧
      (∀ f, detectOffers files = Option.some f → detectPairs files = Option.none →
        (load_wdc_variant files vn sp).map WdcEmission.pairs = Except.ok []) ∧
      (∀ f, detectOffers files = Option.some f → detectMulticlass files = Option.none →
        (load_wdc_variant files vn sp).map
            (fun e => (e.entities, e.links)) = Except.ok ([], [])) := by
  intro files vn sp
  refine ⟨?_, ?_, ?_, ?_⟩
  · intro h
    simp [load_wdc_variant, h]
  · intro f h
    simp [load_wdc_variant, h, Except.map]
  · intro f h hp
    simp [load_wdc_variant, h, hp, Except.map]
  · intro f h hm
    simp [load_wdc_variant, h, hm, Except.map]

/-- Witness for C8: an empty directory fails; a directory holding only a
well-formed offers file loads items and silently skips pairs and
multi-class labels. -/
theorem c8_missing_files_witness :
    load_wdc_variant [] (Option.some "v") Option.none =
      Except.error "No offers file with expected columns found" ∧
    (load_wdc_variant [FileModel.mk "offers.csv" false wdcOffersCols []]
        (Option.some "v") Option.none).map WdcEmission.pairs = Except.ok [] ∧
    (load_wdc_variant [FileModel.mk "offers.csv" false wdcOffersCols []]
        (Option.some "v") Option.none).map
      (fun e => (e.entities, e.links)) = Except.ok ([], []) :=
  ⟨(c8_missing_files [] (Option.some "v") Option.none).1 (by rfl),
    (c8_missing_files [FileModel.mk "offers.csv" false wdcOffersCols []]
        (Option.some "v") Option.none).2.2.1 _ (by rfl) (by rfl),
    (c8_missing_files [FileModel.mk "offers.csv" false wdcOffersCols []]
        (Option.some "v") Option.none).2.2.2 _ (by rfl) (by rfl)⟩

/-- C6 counterexample: on a product table whose only column matches no
identifier pattern, the session/log adapter still emits a record, but the
field populated from the identifier role is the literal string `"None"`
(`str(r.get(None))`), not a structurally absent value, and the item id is
the hash of `"None"` — refuting the claim for the identifier role. -/
theorem c6_counterexample :
    (load_cikm16_products (Table.mk ["zzz"] [[("zzz", sv "x")]]) Option.none).map
        ItemRec.dataset_item_key = [PyVal.str "None"] ∧
    (load_cikm16_products (Table.mk ["zzz"] [[("zzz", sv "x")]]) Option.none).map
        ItemRec.item_id = [md5_id [sv "cikm16", sv "None"]] ∧
    PyVal.str "None" ≠ PyVal.none := by
  exact ⟨rfl, rfl, by decide⟩

/-- C6 (amended): when the title, description, brand, price or category
role is unresolved the adapter still emits one (degraded) record per row
with the corresponding field structurally absent; when the *identifier*
role is unresolved the adapter also does not fail, but the key field is
the string rendering `"None"` of Python `None` (and the item id its
hash), not an absent value. -/
theorem c6_unresolved_roles :
    ∀ (prods : Table) (cats : Option Table),
      (load_cikm16_products prods cats).length = prods.rows.length ∧
      ∀ it ∈ load_cikm16_products prods cats,
        (cikmTitleCol prods.cols = Option.none → it.title = Option.none) ∧
        (cikmDescCol prods.cols = Option.none → it.description = Option.none) ∧
        (cikmBrandCol prods.cols = Option.none → it.brand = PyVal.none) ∧
        (cikmPriceCol prods.cols = Option.none →
          it.price = Option.none ∧ it.currency = PyVal.none) ∧
        (cikmCatMap cats = [] → it.category = PyVal.none) ∧
        (cikmIdCol prods.cols = Option.none →
          it.dataset_item_key = PyVal.str "None" ∧
          it.item_id = md5_id [sv "cikm16", sv "None"]) := by
  intro prods cats
  refine ⟨by simp [load_cikm16_products], ?_⟩
  intro it hit
  simp only [load_cikm16_products, List.mem_map] at hit
  obtain ⟨r, _, rfl⟩ := hit
  refine ⟨?_, ?_, ?_, ?_, ?_, ?_⟩
  · intro h; simp [cikmItem, h]
  · intro h; simp [cikmItem, h]
  · intro h; simp [cikmItem, h, rGetOpt]
  · intro h; simp [cikmItem, h, optPy]
  · intro h; simp [cikmItem, h, dictGet, optPy]
  · intro h; simp [cikmItem, h, rGetOpt, pyStr]

/-- Witness for C6 at a one-column table resolving no role. -/
theorem c6_unresolved_roles_witness :
    (load_cikm16_products (Table.mk ["zzz"] [[("zzz", sv "x")]]) Option.none).length = 1 ∧
    (cikmItem Option.none Option.none Option.none Option.none Option.none []
        [("zzz", sv "x")]).dataset_item_key = PyVal.str "None" ∧
    (cikmItem Option.none Option.none Option.none Option.none Option.none []
        [("zzz", sv "x")]).title = Option.none :=
  ⟨(c6_unresolved_roles (Table.mk ["zzz"] [[("zzz", sv "x")]]) Option.none).1,
    (((c6_unresolved_roles (Table.mk ["zzz"] [[("zzz", sv "x")]]) Option.none).2
        _ (by decide)).2.2.2.2.2 (by rfl)).1,
    (((c6_unresolved_roles (Table.mk ["zzz"] [[("zzz", sv "x")]]) Option.none).2
        _ (by decide)).1 (by rfl))⟩

/-! Supporting lemmas for C5. -/

theorem chunkBatch_all_some :
    ∀ {ch : List Row} {f : Row → Option QLabelRec},
      (∀ r ∈ ch, (f r).isSome = true) →
      chunkBatch f ch = Option.some (ch.filterMap f) := by
  intro ch
  induction ch with
  | nil =>
    intro f h
    rfl
  | cons r rest ih =>
    intro f h
    have hr := h r (List.mem_cons_self r rest)
    rcases hq : f r with _ | q
    · rw [hq] at hr
      exact absurd hr (by simp)
    · unfold chunkBatch
      rw [hq, ih fun x hx => h x (List.mem_cons_of_mem r hx)]
      simp [List.filterMap_cons, hq]

theorem loadGo_all_some :
    ∀ {chs : List (List Row)} {f : Row → Option QLabelRec},
      (∀ ch ∈ chs, ∀ r ∈ ch, (f r).isSome = true) →
      loadInteractionsGo f chs = Except.ok (chs.flatten.filterMap f) := by
  intro chs
  induction chs with
  | nil =>
    intro f h
    rfl
  | cons ch rest ih =>
    intro f h
    unfold loadInteractionsGo
    rw [chunkBatch_all_some (h ch (List.mem_cons_self ch rest)),
      ih fun c hc => h c (List.mem_cons_of_mem ch hc)]
    simp [List.filterMap_append]

theorem mem_chunks_subset {α : Type} {k : Nat} {xs ch : List α}
    (hch : ch ∈ chunks k xs) : ∀ a ∈ ch, a ∈ xs := by
  intro a ha
  have hmem : a ∈ (chunks k xs).flatten := List.mem_flatten.mpr ⟨ch, hch, ha⟩
  rwa [chunks_flatten] at hmem

theorem filterMap_length_all_some :
    ∀ {l : List Row} {f : Row → Option QLabelRec},
      (∀ r ∈ l, (f r).isSome = true) → (l.filterMap f).length = l.length := by
  intro l
  induction l with
  | nil =>
    intro f h
    rfl
  | cons r rest ih =>
    intro f h
    have hr := h r (List.mem_cons_self r rest)
    rcases hq : f r with _ | q
    · rw [hq] at hr
      exact absurd hr (by simp)
    · simp [List.filterMap_cons, hq, ih fun x hx => h x (List.mem_cons_of_mem r hx)]

theorem cikmInteraction_label {qidc sessc itemc tfc posc : Option String}
    {fam : String} {r : Row} {q : QLabelRec}
    (h : cikmInteraction qidc sessc itemc tfc posc fam r = Option.some q) :
    q.label = if fam ∈ ["click", "purchase", "view"] then PyVal.int 1
      else PyVal.none := by
  simp only [cikmInteraction] at h
  split at h
  · exact absurd h (by simp)
  · split at h
    · exact absurd h (by simp)
    · simp only [Option.some.injEq] at h
      subst h
      rfl

/-- C5 counterexample: a row whose `position` cell `int()` rejects aborts
the load, so the program does not emit one row per input row and the
emitted rows depend on the chunk size: with a good row followed by a bad
row, chunk size 1 emits the first chunk before aborting while a single
chunk covering the log emits nothing. -/
theorem c5_counterexample :
    load_interactions 1 ["queryId", "position"]
        [[("queryId", sv "7"), ("position", sv "2")],
         [("queryId", sv "7"), ("position", sv "abc")]] "view" ≠
      load_interactions 2 ["queryId", "position"]
        [[("queryId", sv "7"), ("position", sv "2")],
         [("queryId", sv "7"), ("position", sv "abc")]] "view" ∧
    load_interactions 2 ["queryId", "position"]
        [[("queryId", sv "7"), ("position", sv "2")],
         [("queryId", sv "7"), ("position", sv "abc")]] "view" = Except.error [] := by
  exact ⟨by decide, by decide⟩

/-- C5 (amended): on a log on which every `int()` conversion succeeds the
adapter completes, emitting exactly one `query_item_labels` row per input
interaction row with label `1` for the `view`/`click`/`purchase`
families, and the emission is the same for every chunk size; a row whose
`position`/`timeframe` cell `int()` rejects raises `ValueError` and
aborts the load with only the chunks preceding the failing one emitted,
so on such logs the emitted rows depend on the chunk size. -/
theorem c5_chunked_log :
    ∀ (k k2 : Nat) (cols : List String) (rows : List Row) (fam : String),
      (∀ r ∈ rows, (cikmRowFun cols fam r).isSome = true) →
      load_interactions k cols rows fam =
        Except.ok (rows.filterMap (cikmRowFun cols fam)) ∧
      load_interactions k cols rows fam = load_interactions k2 cols rows fam ∧
      (rows.filterMap (cikmRowFun cols fam)).length = rows.length ∧
      (fam ∈ ["view", "click", "purchase"] →
        ∀ q ∈ rows.filterMap (cikmRowFun cols fam), q.label = PyVal.int 1) := by
  intro k k2 cols rows fam h
  have hok : ∀ k3 : Nat, load_interactions k3 cols rows fam =
      Except.ok (rows.filterMap (cikmRowFun cols fam)) := by
    intro k3
    show loadInteractionsGo (cikmRowFun cols fam) (chunks k3 rows) = _
    rw [loadGo_all_some fun ch hch r hr => h r (mem_chunks_subset hch r hr)]
    rw [chunks_flatten]
  refine ⟨hok k, (hok k).trans (hok k2).symm, filterMap_length_all_some h, ?_⟩
  intro hfam q hq
  obtain ⟨r, _, hfr⟩ := List.mem_filterMap.mp hq
  have hlab := cikmInteraction_label hfr
  have hf : fam ∈ ["click", "purchase", "view"] := by
    simp only [List.mem_cons, List.not_mem_nil, or_false] at hfam ⊢
    tauto
  rw [hlab, if_pos hf]

/-- Witness for C5 on a one-row view log whose cells all convert,
processed with two different chunk sizes. -/
theorem c5_chunked_log_witness :
    load_interactions 1 ["queryId"] [[("queryId", sv "7")]] "view" =
      load_interactions 1000000 ["queryId"] [[("queryId", sv "7")]] "view" ∧
    ([[("queryId", sv "7")]].filterMap (cikmRowFun ["queryId"] "view")).length = 1 :=
  ⟨(c5_chunked_log 1 1000000 ["queryId"] [[("queryId", sv "7")]] "view" (by decide)).2.1,
    (c5_chunked_log 1 1000000 ["queryId"] [[("queryId", sv "7")]] "view"
      (by decide)).2.2.1⟩

/-! Supporting lemmas for C7: every number the price regex matches parses
as a Python float, so the branch returning a currency without a price is
unreachable. -/

theorem takeWhile_all_eq {p : Char → Bool} {l : List Char} (h : ∀ a ∈ l, p a) :
    l.takeWhile p = l := by
  simpa using @List.takeWhile_append_of_pos Char p l [] h

theorem digit_ne_comma {c : Char} (h : isDigit c = true) : c ≠ ',' := by
  intro heq
  subst heq
  exact absurd h (by decide)

theorem digit_ne_minus {c : Char} (h : isDigit c = true) : ¬(c = '-') := by
  intro heq
  subst heq
  exact absurd h (by decide)

theorem digit_ne_plus {c : Char} (h : isDigit c = true) : ¬(c = '+') := by
  intro heq
  subst heq
  exact absurd h (by decide)

theorem pyFloatMag_digits {ds : List Char} (h1 : ds ≠ [])
    (h2 : ∀ a ∈ ds, isDigit a) :
    pyFloatMag ds = Option.some (mkRat (digitsVal ds) 1) := by
  have he : (ds.isEmpty) = false := by
    cases ds with
    | nil => exact absurd rfl h1
    | cons a t => rfl
  unfold pyFloatMag
  simp only [takeWhile_all_eq h2, List.drop_length]
  simp [he]

theorem pyFloatMag_dot {ds fs : List Char} (h1 : ds ≠ [])
    (h2 : ∀ a ∈ ds, isDigit a) (h3 : ∀ a ∈ fs, isDigit a) :
    pyFloatMag (ds ++ '.' :: fs) =
      Option.some (mkRat (digitsVal ds * 10 ^ fs.length + digitsVal fs)
        (10 ^ fs.length)) := by
  have ht : (ds ++ '.' :: fs).takeWhile isDigit = ds := by
    rw [List.takeWhile_append_of_pos h2, List.takeWhile_cons_of_neg (by decide),
      List.append_nil]
  have he : (ds.isEmpty) = false := by
    cases ds with
    | nil => exact absurd rfl h1
    | cons a t => rfl
  unfold pyFloatMag
  simp only [ht, List.drop_left]
  simp [he, takeWhile_all_eq h3, List.drop_length]

theorem pyFloat_digits {ds : List Char} (h1 : ds ≠ [])
    (h2 : ∀ a ∈ ds, isDigit a) :
    pyFloat (String.mk ds) = Option.some (mkRat (digitsVal ds) 1) := by
  cases ds with
  | nil => exact absurd rfl h1
  | cons c t =>
    have hc : isDigit c := h2 c (List.mem_cons_self c t)
    show pyFloat (String.mk (c :: t)) = _
    unfold pyFloat
    simp only [if_neg (digit_ne_minus hc), if_neg (digit_ne_plus hc)]
    exact pyFloatMag_digits (by simp) h2

theorem pyFloat_dot {ds fs : List Char} (h1 : ds ≠ [])
    (h2 : ∀ a ∈ ds, isDigit a) (h3 : ∀ a ∈ fs, isDigit a) :
    pyFloat (String.mk (ds ++ '.' :: fs)) =
      Option.some (mkRat (digitsVal ds * 10 ^ fs.length + digitsVal fs)
        (10 ^ fs.length)) := by
  cases ds with
  | nil => exact absurd rfl h1
  | cons c t =>
    have hc : isDigit c := h2 c (List.mem_cons_self c t)
    show pyFloat (String.mk (c :: (t ++ '.' :: fs))) = _
    unfold pyFloat
    simp only [if_neg (digit_ne_minus hc), if_neg (digit_ne_plus hc)]
    exact @pyFloatMag_dot (c :: t) fs (by simp) h2 h3

/-- The shape of every string `matchNum` can return: digits, optionally
followed by one `.`/`,` separator and one or two more digits. -/
def numShape (num : List Char) : Prop :=
  (num ≠ [] ∧ ∀ a ∈ num, isDigit a) ∨
  (∃ ds sep fs, num = ds ++ sep :: fs ∧ ds ≠ [] ∧ (∀ a ∈ ds, isDigit a) ∧
    fs ≠ [] ∧ (∀ a ∈ fs, isDigit a) ∧ (sep = '.' ∨ sep = ','))

theorem matchNum_shape {cs num : List Char}
    (h : matchNum cs = Option.some num) : numShape num := by
  unfold matchNum at h
  by_cases he : (cs.takeWhile isDigit).isEmpty = true
  · simp [he] at h
  · rw [if_neg he] at h
    have hne : cs.takeWhile isDigit ≠ [] := by
      intro hx
      rw [hx] at he
      exact he rfl
    have hdig : ∀ a ∈ cs.takeWhile isDigit, isDigit a :=
      fun a ha => List.mem_takeWhile_imp ha
    split at h
    · simp only [Option.some.injEq] at h
      subst h
      exact Or.inl ⟨hne, hdig⟩
    · rename_i sep t _
      split at h
      · rename_i hsep
        split at h
        · simp only [Option.some.injEq] at h
          subst h
          exact Or.inl ⟨hne, hdig⟩
        · rename_i hfs
          simp only [Option.some.injEq] at h
          subst h
          refine Or.inr ⟨_, sep, _, rfl, hne, hdig, ?_, ?_, ?_⟩
          · intro hx
            rw [hx] at hfs
            exact hfs rfl
          · intro a ha
            exact List.mem_takeWhile_imp (List.mem_of_mem_take ha)
          · simpa using hsep
      · simp only [Option.some.injEq] at h
        subst h
        exact Or.inl ⟨hne, hdig⟩

theorem stripCommas_digits {l : List Char} (h : ∀ a ∈ l, isDigit a) :
    stripCommas l = l := by
  unfold stripCommas
  rw [List.filter_eq_self]
  intro a ha
  simpa using digit_ne_comma (h a ha)

theorem numShape_pyFloat {num : List Char} (h : numShape num) :
    ∃ q, pyFloat (String.mk (stripCommas num)) = Option.some q := by
  rcases h with ⟨hne, hall⟩ | ⟨ds, sep, fs, rfl, hds, hallds, hfs, hallfs, hsep⟩
  · rw [stripCommas_digits hall]
    exact ⟨_, pyFloat_digits hne hall⟩
  · rcases hsep with rfl | rfl
    · have hsc : stripCommas (ds ++ '.' :: fs) = ds ++ '.' :: fs := by
        unfold stripCommas
        rw [List.filter_eq_self]
        intro a ha
        rcases List.mem_append.mp ha with ha | ha
        · simpa using digit_ne_comma (hallds a ha)
        · rcases List.mem_cons.mp ha with rfl | ha
          · decide
          · simpa using digit_ne_comma (hallfs a ha)
      rw [hsc]
      exact ⟨_, pyFloat_dot hds hallds hallfs⟩
    · have hsc : stripCommas (ds ++ ',' :: fs) = ds ++ fs := by
        have hd := stripCommas_digits hallds
        have hf := stripCommas_digits hallfs
        unfold stripCommas at hd hf ⊢
        rw [List.filter_append, List.filter_cons_of_neg (by decide), hd, hf]
      rw [hsc]
      refine ⟨_, pyFloat_digits ?_ ?_⟩
      · intro hx
        rcases List.append_eq_nil.mp hx with ⟨hx1, _⟩
        exact hds hx1
      · intro a ha
        rcases List.mem_append.mp ha with ha | ha
        · exact hallds a ha
        · exact hallfs a ha

theorem tryMatchAt_num {cs : List Char} {sym : Option Char} {num : List Char}
    (h : tryMatchAt cs = Option.some (sym, num)) :
    ∃ cs2, matchNum cs2 = Option.some num := by
  rcases cs with _ | ⟨c, t⟩
  · exact absurd h (by simp [tryMatchAt])
  · have h2 : (if isCurSym c = true then
        match matchNum (t.dropWhile isPySpace) with
        | Option.some n => Option.some (Option.some c, n)
        | Option.none => Option.none
      else (matchNum ((c :: t).dropWhile isPySpace)).map fun n => (Option.none, n)) =
        Option.some (sym, num) := h
    by_cases hc : isCurSym c = true
    · rw [if_pos hc] at h2
      rcases hm : matchNum (t.dropWhile isPySpace) with _ | num'
      · rw [hm] at h2
        exact absurd h2 (by simp)
      · rw [hm] at h2
        simp only [Option.some.injEq, Prod.mk.injEq] at h2
        exact ⟨_, by rw [hm, h2.2]⟩
    · rw [if_neg hc] at h2
      rcases hm : matchNum ((c :: t).dropWhile isPySpace) with _ | num'
      · rw [hm] at h2
        exact absurd h2 (by simp)
      · rw [hm] at h2
        simp only [Option.map_some', Option.some.injEq, Prod.mk.injEq] at h2
        exact ⟨_, by rw [hm, h2.2]⟩

theorem reSearchPrice_num :
    ∀ {cs : List Char} {sym : Option Char} {num : List Char},
      reSearchPrice cs = Option.some (sym, num) →
      ∃ cs2, matchNum cs2 = Option.some num := by
  intro cs
  induction cs with
  | nil =>
    intro sym num h
    exact absurd h (by simp [reSearchPrice])
  | cons c t ih =>
    intro sym num h
    unfold reSearchPrice at h
    rcases ht : tryMatchAt (c :: t) with _ | r
    · rw [ht] at h
      exact ih h
    · rw [ht] at h
      simp only [Option.some.injEq] at h
      subst h
      exact tryMatchAt_num ht

/-- C7: `parse_price_currency` never returns a currency together with a
`None` price: whenever the price component is `None` — no regex match and
no successful direct float parse — the currency component is `None` as
well; the code branch pairing a currency with a failed float parse of the
matched number is unreachable, because every matched number parses. -/
theorem c7_no_currency_without_price :
    ∀ raw : PyVal, (parse_price_currency raw).1 = Option.none →
      (parse_price_currency raw).2 = Option.none := by
  intro raw h
  by_cases hn : raw = PyVal.none
  · simp [parse_price_currency, hn]
  · rcases hs : reSearchPrice (pyStr raw).data with _ | ⟨sym, num⟩
    · simp [parse_price_currency, hn, hs]
    · obtain ⟨cs2, hm⟩ := reSearchPrice_num hs
      obtain ⟨q, hq⟩ := numShape_pyFloat (matchNum_shape hm)
      simp only [parse_price_currency, if_neg hn, hs, hq] at h
      exact absurd h (by simp)

/-- Witness for C7 at the unparseable input `"n/a"`. -/
theorem c7_no_currency_without_price_witness :
    (parse_price_currency (sv "n/a")).2 = Option.none :=
  c7_no_currency_without_price (sv "n/a") (by decide)

end RetailMatch
